import Mathlib

/-!
# Geometrical quantities for CDO schemes (`cs_cdo_quantities.h`) and the
# Lagrangian user hook `cs_user_lagr_model`

The C code works on `double`.  The embedding keeps the operations of the source
and is generic in the scalar type `α` and in the square root used by
`cs_math_3_norm`, so that one definition of each function has two readings:

* over the real numbers with `Real.sqrt`: the exact (round-off free) value;
* over `F64` with `F64.sqrt`: the value in IEEE-754 binary64 arithmetic, with
  rounding, underflow, infinities and NaN.
-/

namespace CsCdo

/-! ## Data model -/

/-- A `cs_real_t[3]` array: the components `v[0]`, `v[1]`, `v[2]`. -/
structure cs_real_3_t (α : Type) where
  c0 : α
  c1 : α
  c2 : α
  deriving DecidableEq

/-- The structure `cs_quant_t` (primal vector quantity of an edge or a face):
`meas` is the length or area, `unitv` the unit tangent or normal, `center` the
center of the element. -/
structure cs_quant_t (α : Type) where
  meas : α
  unitv : cs_real_3_t α
  center : cs_real_3_t α

/-! ## Helpers of `cs_math.h` -/

/-- Modelled from the spec: `cs_math_3_norm` is declared in `cs_math.h`, which
is outside the files covered here; it is taken to be the Euclidean norm of a
3-vector, `sqrt(v[0]*v[0] + v[1]*v[1] + v[2]*v[2])`, with the square root as a
parameter. -/
def cs_math_3_norm {α : Type} [Add α] [Mul α] (sqrt : α → α) (v : cs_real_3_t α) : α :=
  sqrt (v.c0 * v.c0 + v.c1 * v.c1 + v.c2 * v.c2)

/-- Modelled from the spec: `cs_math_3_cross_product` is declared in
`cs_math.h`, which is outside the files covered here; it is taken to be the
cross product `u x v` of two 3-vectors. -/
def cs_math_3_cross_product {α : Type} [Sub α] [Mul α] (u v : cs_real_3_t α) :
    cs_real_3_t α :=
  { c0 := u.c1 * v.c2 - u.c2 * v.c1
    c1 := u.c2 * v.c0 - u.c0 * v.c2
    c2 := u.c0 * v.c1 - u.c1 * v.c0 }

/-! ## `cs_compute_area_from_quant` -/

/-- The local array `xef` of `cs_compute_area_from_quant`:
`xef[k] = xa[k] - q.center[k]`. -/
def xef {α : Type} [Sub α] (q : cs_quant_t α) (xa : cs_real_3_t α) : cs_real_3_t α :=
  { c0 := xa.c0 - q.center.c0
    c1 := xa.c1 - q.center.c1
    c2 := xa.c2 - q.center.c2 }

/-- The local `xef_len = cs_math_3_norm(xef)` of `cs_compute_area_from_quant`. -/
def xef_len {α : Type} [Add α] [Sub α] [Mul α] (sqrt : α → α) (q : cs_quant_t α)
    (xa : cs_real_3_t α) : α :=
  cs_math_3_norm sqrt (xef q xa)

/-- The local `inv_len = 1/xef_len` of `cs_compute_area_from_quant`. -/
def inv_len {α : Type} [Add α] [Sub α] [Mul α] [Div α] [OfNat α 1] (sqrt : α → α)
    (q : cs_quant_t α) (xa : cs_real_3_t α) : α :=
  1 / xef_len sqrt q xa

/-- The local array `xef_un` of `cs_compute_area_from_quant`:
`xef_un[k] = inv_len * xef[k]`. -/
def xef_un {α : Type} [Add α] [Sub α] [Mul α] [Div α] [OfNat α 1] (sqrt : α → α)
    (q : cs_quant_t α) (xa : cs_real_3_t α) : cs_real_3_t α :=
  { c0 := inv_len sqrt q xa * (xef q xa).c0
    c1 := inv_len sqrt q xa * (xef q xa).c1
    c2 := inv_len sqrt q xa * (xef q xa).c2 }

/-- The inline function `cs_compute_area_from_quant(q, xa)`: area of the
triangle of base given by `q` (a segment) with apex located at `xa`. -/
def cs_compute_area_from_quant {α : Type} [Add α] [Sub α] [Mul α] [Div α] [OfNat α 1]
    [OfScientific α] (sqrt : α → α) (q : cs_quant_t α) (xa : cs_real_3_t α) : α :=
  let cp := cs_math_3_cross_product (xef_un sqrt q xa) q.unitv
  0.5 * xef_len sqrt q xa * q.meas * cs_math_3_norm sqrt cp

/-! ## IEEE-754 binary64 arithmetic (the C type `double`)

`cs_real_t` is `double`.  The functions above are generic in the scalar type,
so the same definitions can be evaluated in the arithmetic the compiled code
uses.  `F64` models binary64 with round-to-nearest, ties-to-even: every
operation computes the exact result on integers and rounds it once (each C
operation is taken to be evaluated in binary64, without extended precision and
without fused multiply-add). -/

/-- A binary64 value: a finite number `(-1)^s * m * 2^e`, an infinity with its
sign, or NaN.  Every operation returns finite values in canonical form:
`m = 0, e = 0` for a zero, `2^52 <= m < 2^53` and `-1074 <= e <= 971` for a
normal number, `0 < m < 2^52` and `e = -1074` for a subnormal number. -/
inductive F64 where
  | fin (s : Bool) (m : Nat) (e : Int)
  | inf (s : Bool)
  | nan
  deriving DecidableEq, Repr

/-- Auxiliary function of `F64.log2`, by recursion on a bound of the number of
halvings. -/
def F64.log2Aux : Nat → Nat → Nat
  | 0, _ => 0
  | fuel + 1, n => if n < 2 then 0 else F64.log2Aux fuel (n / 2) + 1

/-- Position of the leading bit of `n`: `2^(log2 n) <= n < 2^(log2 n + 1)` for
`n > 0`. -/
def F64.log2 (n : Nat) : Nat := F64.log2Aux n n

/-- Rounding to binary64 (nearest, ties to even) of the exact value
`(-1)^s * (N / D) * 2^sc`, for `D > 0`.  `e` is the exponent of the leading
bit of the value, `qe` the exponent of the last kept bit (53 significant bits,
fewer in the subnormal range), `n` the rounded significand; a result of
magnitude `2^1024` or more is an infinity. -/
def F64.round (s : Bool) (N D : Nat) (sc : Int) : F64 :=
  if N = 0 then F64.fin s 0 0
  else
    let e0 : Int := (F64.log2 N : Int) - (F64.log2 D : Int)
    let e : Int := (if D * 2 ^ F64.log2 N ≤ N * 2 ^ F64.log2 D then e0 else e0 - 1) + sc
    let qe : Int := max (e - 52) (-1074)
    let t : Int := sc - qe
    let num : Nat := if 0 ≤ t then N * 2 ^ t.toNat else N
    let den : Nat := if 0 ≤ t then D else D * 2 ^ (-t).toNat
    let n0 := num / den
    let r := num % den
    let n := if 2 * r < den then n0 else if den < 2 * r then n0 + 1
      else if n0 % 2 = 0 then n0 else n0 + 1
    if n = 0 then F64.fin s 0 0
    else if n = 2 ^ 53 then (if 971 < qe + 1 then F64.inf s else F64.fin s (2 ^ 52) (qe + 1))
    else if 971 < qe then F64.inf s else F64.fin s n qe

/-- The integer `(-1)^s * m * 2^(e - emin)`, for `emin <= e`. -/
def F64.toIntAt (s : Bool) (m : Nat) (e emin : Int) : Int :=
  (if s then -1 else 1) * ((m * 2 ^ (e - emin).toNat : Nat) : Int)

/-- Unary minus: the sign is flipped. -/
def F64.neg : F64 → F64
  | F64.fin s m e => F64.fin (!s) m e
  | F64.inf s => F64.inf (!s)
  | F64.nan => F64.nan

/-- Addition: the exact sum is rounded; an exact zero sum is `-0` only when
both operands are negative; `inf + (-inf)` is NaN. -/
def F64.add : F64 → F64 → F64
  | F64.fin s1 m1 e1, F64.fin s2 m2 e2 =>
    let e := min e1 e2
    let z : Int := F64.toIntAt s1 m1 e1 e + F64.toIntAt s2 m2 e2 e
    if z = 0 then F64.fin (s1 && s2) 0 0 else F64.round (decide (z < 0)) z.natAbs 1 e
  | F64.fin _ _ _, F64.inf s2 => F64.inf s2
  | F64.inf s1, F64.fin _ _ _ => F64.inf s1
  | F64.inf s1, F64.inf s2 => if s1 = s2 then F64.inf s1 else F64.nan
  | _, _ => F64.nan

/-- Subtraction: `a - b = a + (-b)`. -/
def F64.sub (a b : F64) : F64 := F64.add a (F64.neg b)

/-- Multiplication: the exact product is rounded; `0 * inf` is NaN. -/
def F64.mul : F64 → F64 → F64
  | F64.fin s1 m1 e1, F64.fin s2 m2 e2 => F64.round (xor s1 s2) (m1 * m2) 1 (e1 + e2)
  | F64.fin s1 m1 _, F64.inf s2 => if m1 = 0 then F64.nan else F64.inf (xor s1 s2)
  | F64.inf s1, F64.fin s2 m2 _ => if m2 = 0 then F64.nan else F64.inf (xor s1 s2)
  | F64.inf s1, F64.inf s2 => F64.inf (xor s1 s2)
  | _, _ => F64.nan

/-- Division: the exact quotient is rounded; a non-zero number divided by a
zero is an infinity, `0 / 0` and `inf / inf` are NaN. -/
def F64.div : F64 → F64 → F64
  | F64.fin s1 m1 e1, F64.fin s2 m2 e2 =>
    if m2 = 0 then (if m1 = 0 then F64.nan else F64.inf (xor s1 s2))
    else F64.round (xor s1 s2) m1 m2 (e1 - e2)
  | F64.fin s1 _ _, F64.inf s2 => F64.fin (xor s1 s2) 0 0
  | F64.inf s1, F64.fin s2 _ _ => F64.inf (xor s1 s2)
  | _, _ => F64.nan

/-- Auxiliary function of `F64.isqrt`: the bits `2^(i-1)`, ..., `2^0` of the
root are decided in turn. -/
def F64.isqrtAux (n : Nat) : Nat → Nat → Nat
  | 0, r => r
  | i + 1, r => F64.isqrtAux n i (if (r + 2 ^ i) * (r + 2 ^ i) ≤ n then r + 2 ^ i else r)

/-- Integer square root: the largest `r` with `r * r <= n`. -/
def F64.isqrt (n : Nat) : Nat := F64.isqrtAux n (F64.log2 n / 2 + 1) 0

/-- Square root (the C library `sqrt`, correctly rounded): the significand is
scaled by `4^60`, its integer square root `r` is taken, and the exact root,
which is `r` or lies strictly between `r` and `r + 1`, is rounded.  The square
root of a negative number is NaN and `sqrt(-0) = -0`. -/
def F64.sqrt : F64 → F64
  | F64.fin s m e =>
    if m = 0 then F64.fin s 0 0
    else if s then F64.nan
    else
      let odd : Int := e % 2
      let M : Nat := (if odd = 1 then 2 * m else m) * 4 ^ 60
      let r := F64.isqrt M
      F64.round false (2 * r + (if r * r = M then 0 else 1)) 1 ((e - odd) / 2 - 61)
  | F64.inf s => if s then F64.nan else F64.inf false
  | F64.nan => F64.nan

/-- The comparison `a < b` of C: false as soon as an operand is NaN. -/
def F64.lt : F64 → F64 → Bool
  | F64.fin s1 m1 e1, F64.fin s2 m2 e2 =>
    decide (F64.toIntAt s1 m1 e1 (min e1 e2) < F64.toIntAt s2 m2 e2 (min e1 e2))
  | F64.fin _ _ _, F64.inf s2 => !s2
  | F64.inf s1, F64.fin _ _ _ => s1
  | F64.inf s1, F64.inf s2 => s1 && !s2
  | _, _ => false

/-- A value is finite when it is neither an infinity nor NaN. -/
def F64.isFinite : F64 → Bool
  | F64.fin _ _ _ => true
  | _ => false

/-- The power of two `2^k` as a binary64 value (exact for
`-1074 <= k <= 1023`). -/
def F64.pow2 (k : Int) : F64 := F64.round false 1 1 k

instance : Add F64 := ⟨F64.add⟩

instance : Sub F64 := ⟨F64.sub⟩

instance : Mul F64 := ⟨F64.mul⟩

instance : Div F64 := ⟨F64.div⟩

instance : Neg F64 := ⟨F64.neg⟩

instance (n : Nat) : OfNat F64 n := ⟨F64.round false n 1 0⟩

instance : OfScientific F64 where
  ofScientific m s e :=
    if s then F64.round false m (10 ^ e) 0 else F64.round false (m * 10 ^ e) 1 0

/-! ## Concrete `double` inputs of `cs_compute_area_from_quant` -/

/-- A segment of length 1 along the x axis, centred at the origin. -/
def tiny_quant : cs_quant_t F64 :=
  { meas := 1, unitv := ⟨1, 0, 0⟩, center := ⟨0, 0, 0⟩ }

/-- The apex `(0, 2^-600, 0)`. -/
def tiny_xa : cs_real_3_t F64 := ⟨0, F64.pow2 (-600), 0⟩

/-- A segment of length 1 along the z axis, centred at the origin. -/
def rounding_quant {α : Type} [OfNat α 0] [OfNat α 1] : cs_quant_t α :=
  { meas := 1, unitv := ⟨0, 0, 1⟩, center := ⟨0, 0, 0⟩ }

/-- The apex `(0, 3, 4)`. -/
def rounding_xa {α : Type} [OfNat α 0] [OfNat α 3] [OfNat α 4] : cs_real_3_t α := ⟨0, 3, 4⟩

/-- A segment of length 1 along the z axis, centred at (1, 2, 3). -/
def apex_on_center_quant : cs_quant_t F64 :=
  { meas := 1, unitv := ⟨0, 0, 1⟩, center := ⟨1, 2, 3⟩ }

/-- View of a `cs_real_t[3]` array as a function on `Fin 3`. -/
def vec {α : Type} (v : cs_real_3_t α) : Fin 3 → α := ![v.c0, v.c1, v.c2]

/-- First end point of the segment described by `q`:
`v1 = q.center - (q.meas/2) * q.unitv`. -/
def segment_v1 {α : Type} [Field α] (q : cs_quant_t α) : cs_real_3_t α :=
  { c0 := q.center.c0 - q.meas / 2 * q.unitv.c0
    c1 := q.center.c1 - q.meas / 2 * q.unitv.c1
    c2 := q.center.c2 - q.meas / 2 * q.unitv.c2 }

/-- Second end point of the segment described by `q`:
`v2 = q.center + (q.meas/2) * q.unitv`. -/
def segment_v2 {α : Type} [Field α] (q : cs_quant_t α) : cs_real_3_t α :=
  { c0 := q.center.c0 + q.meas / 2 * q.unitv.c0
    c1 := q.center.c1 + q.meas / 2 * q.unitv.c1
    c2 := q.center.c2 + q.meas / 2 * q.unitv.c2 }

/-! ## Unit-cube scenario: the face `z = 0` -/

/-- Centre of the unit square face with vertices (0,0,0), (1,0,0), (1,1,0),
(0,1,0). -/
def unit_square_xf {α : Type} [OfNat α 0] [OfScientific α] : cs_real_3_t α := ⟨0.5, 0.5, 0⟩

/-- The four edges of the unit square face, each with length 1, its unit
tangent and its midpoint. -/
def unit_square_edges {α : Type} [OfNat α 0] [OfNat α 1] [Neg α] [OfScientific α] :
    List (cs_quant_t α) :=
  [ { meas := 1, unitv := ⟨1, 0, 0⟩, center := ⟨0.5, 0, 0⟩ },
    { meas := 1, unitv := ⟨0, 1, 0⟩, center := ⟨1, 0.5, 0⟩ },
    { meas := 1, unitv := ⟨-1, 0, 0⟩, center := ⟨0.5, 1, 0⟩ },
    { meas := 1, unitv := ⟨0, -1, 0⟩, center := ⟨0, 0.5, 0⟩ } ]

/-! ## The enumeration `cs_cdo_cc_algo_t` -/

/-- The enumerators of `cs_cdo_cc_algo_t`, in the order of their declaration. -/
inductive cs_cdo_cc_algo_t where
  | CS_CDO_CC_MEANV
  | CS_CDO_CC_BARYC
  | CS_CDO_CC_SATURNE
  | CS_CDO_CC_ORTHO
  | CS_CDO_N_CC_ALGOS
  deriving DecidableEq, Repr

/-- The enumerator list of the `typedef enum` as written in the header; no
enumerator carries an explicit value. -/
def cs_cdo_cc_algo_t.enumerators : List cs_cdo_cc_algo_t :=
  [ .CS_CDO_CC_MEANV, .CS_CDO_CC_BARYC, .CS_CDO_CC_SATURNE, .CS_CDO_CC_ORTHO,
    .CS_CDO_N_CC_ALGOS ]

/-- Integer code of an enumerator under the C rule for enumerations without
explicit values: the first enumerator is 0 and each following one is the
previous one plus 1, i.e. the code is the position in the declaration. -/
def cs_cdo_cc_algo_t.code (a : cs_cdo_cc_algo_t) : Int :=
  (cs_cdo_cc_algo_t.enumerators.indexOf a : Nat)

/-- The enumerators that name a cell-center algorithm (all but the trailing
sentinel `CS_CDO_N_CC_ALGOS`). -/
def cs_cdo_cc_algo_t.algos : List cs_cdo_cc_algo_t :=
  cs_cdo_cc_algo_t.enumerators.filter fun a => a ≠ .CS_CDO_N_CC_ALGOS

/-! ## Structures of the quantities bundle -/

/-- The structure `cs_quant_info_t`: extreme measures of one class of entities,
the diameter estimates and the ids of the entities attaining the extremes
(`cs_lnum_t` ids are array positions). -/
structure cs_quant_info_t (α : Type) where
  meas_min : α
  meas_max : α
  h_min : α
  h_max : α
  min_id : Nat
  max_id : Nat

/-- Modelled from the spec: the type `cs_nvec3_t` (declared outside the
files covered here) stores a vector as a measure and a unit vector. -/
structure cs_nvec3_t (α : Type) where
  meas : α
  unitv : cs_real_3_t α

/-- The structure `cs_dface_t` (dual face of a (cell, edge) pair): ids of the
two parent faces, area and unit normal of the two triangles s(e,f,c), and the
dual face vector. -/
structure cs_dface_t (α : Type) where
  parent_id : Fin 2 → Nat
  sface : Fin 2 → cs_nvec3_t α
  vect : cs_real_3_t α

/-- The structure `cs_cdo_quantities_t`, restricted to the cell, face and edge
based members; the members `cell_flag`, `n_i_faces`, `n_b_faces`, `dedge`,
`n_vertices`, `dcell_vol` and `vtx_coord` are not modelled. -/
structure cs_cdo_quantities_t (α : Type) where
  vol_tot : α
  n_cells : Nat
  cell_centers : List (cs_real_3_t α)
  cell_vol : List α
  cell_info : cs_quant_info_t α
  n_faces : Nat
  face : List (cs_quant_t α)
  face_info : cs_quant_info_t α
  n_edges : Nat
  edge : List (cs_quant_t α)
  dface : List (cs_dface_t α)
  edge_info : cs_quant_info_t α

/-! ## Model of the builder `cs_cdo_quantities_build` -/

/-- Modelled from the spec: one (cell, edge) incidence as the Connectivity
Provider supplies it: the cell, the edge, the two faces of the cell sharing the
edge and the orientation sign of each of the two sub-triangles. -/
structure cs_c2e_t where
  c_id : Nat
  e_id : Nat
  f_id : Fin 2 → Nat
  sgn : Fin 2 → Int

/-- Modelled from the spec: what the Primal Quantity Extractor and the
Connectivity Provider hand over to the Dual Quantity Builder and the Quantity
Aggregator (the extraction of these quantities from the raw mesh is not
modelled). -/
structure cs_cdo_primal_t (α : Type) where
  cell_centers : List (cs_real_3_t α)
  cell_vol : List α
  face : List (cs_quant_t α)
  edge : List (cs_quant_t α)
  c2e : List cs_c2e_t

/-- Modelled from the spec: `cs_nvec3` (its code is outside the files covered
here) stores a vector as its norm and its direction.  The spec does not say
what is stored for a vector without direction; the model stores the zero
vector when the norm is zero. -/
def cs_nvec3 {α : Type} [LinearOrderedField α] (sqrt : α → α) (v : cs_real_3_t α) :
    cs_nvec3_t α :=
  let magnitude := cs_math_3_norm sqrt v
  if magnitude = 0 then { meas := magnitude, unitv := ⟨0, 0, 0⟩ }
  else
    let inv := 1 / magnitude
    { meas := magnitude, unitv := ⟨inv * v.c0, inv * v.c1, inv * v.c2⟩ }

/-- Modelled from the spec: signed area vector of the triangle spanned by the
cell center `xc`, the face center `xf` and the edge (center `xe`), with the
orientation sign `sgn`: `sgn * 0.5 * (xf - xe) x (xc - xe)`. -/
def cs_sub_triangle_vect {α : Type} [LinearOrderedField α] (sgn : Int)
    (xc xf xe : cs_real_3_t α) : cs_real_3_t α :=
  let cp := cs_math_3_cross_product
    ⟨xf.c0 - xe.c0, xf.c1 - xe.c1, xf.c2 - xe.c2⟩ ⟨xc.c0 - xe.c0, xc.c1 - xe.c1, xc.c2 - xe.c2⟩
  ⟨(sgn : α) * 0.5 * cp.c0, (sgn : α) * 0.5 * cp.c1, (sgn : α) * 0.5 * cp.c2⟩

/-- Modelled from the spec: the dual face of one (cell, edge) incidence
(section 4.2): for each of the two faces sharing the edge, the signed area
vector of the triangle {cell center, face center, edge} is recorded as
`sface[k]`, and `vect` is the sum of the two signed area vectors.  The result
is `none` (InconsistentTopology) when an id is out of bounds. -/
def cs_dface_build {α : Type} [LinearOrderedField α] (sqrt : α → α)
    (p : cs_cdo_primal_t α) (inc : cs_c2e_t) : Option (cs_dface_t α) :=
  match p.cell_centers[inc.c_id]?, p.edge[inc.e_id]?, p.face[inc.f_id 0]?,
      p.face[inc.f_id 1]? with
  | some xc, some qe, some qf0, some qf1 =>
    let t0 := cs_sub_triangle_vect (inc.sgn 0) xc qf0.center qe.center
    let t1 := cs_sub_triangle_vect (inc.sgn 1) xc qf1.center qe.center
    some { parent_id := inc.f_id
           sface := ![cs_nvec3 sqrt t0, cs_nvec3 sqrt t1]
           vect := ⟨t0.c0 + t1.c0, t0.c1 + t1.c1, t0.c2 + t1.c2⟩ }
  | _, _, _, _ => none

/-- Modelled from the spec: the dual faces of all (cell, edge) incidences, in
the order of the c2e connectivity; `none` as soon as one incidence fails. -/
def cs_dface_build_all {α : Type} [LinearOrderedField α] (sqrt : α → α)
    (p : cs_cdo_primal_t α) : List cs_c2e_t → Option (List (cs_dface_t α))
  | [] => some []
  | inc :: rest =>
    match cs_dface_build sqrt p inc, cs_dface_build_all sqrt p rest with
    | some d, some ds => some (d :: ds)
    | _, _ => none

/-- Modelled from the spec: one step of the Quantity Aggregator (section 4.3):
the running minimum and maximum are replaced only by a strictly smaller,
respectively strictly larger, measure, so that ties keep the first-encountered
id; `h` derives the equivalent diameter from the measure. -/
def cs_quant_info_update {α : Type} [LinearOrder α] (h : α → α) (id : Nat) (meas : α)
    (qi : cs_quant_info_t α) : cs_quant_info_t α :=
  let qi1 := if meas < qi.meas_min then
      { qi with meas_min := meas, h_min := h meas, min_id := id }
    else qi
  if qi1.meas_max < meas then
    { qi1 with meas_max := meas, h_max := h meas, max_id := id }
  else qi1

/-- Modelled from the spec: the single scan of a per-entity array in ascending
id order, starting at entity `id` with the running record `qi`. -/
def cs_quant_info_scan {α : Type} [LinearOrder α] (h : α → α) :
    Nat → List α → cs_quant_info_t α → cs_quant_info_t α
  | _, [], qi => qi
  | id, meas :: rest, qi =>
    cs_quant_info_scan h (id + 1) rest (cs_quant_info_update h id meas qi)

/-- Modelled from the spec: the Quality Info record of one entity class: the
record starts from entity 0 and the remaining entities are scanned in ascending
id order.  The spec does not say what the record of an empty class holds; the
model leaves it zero. -/
def cs_quant_info_compute {α : Type} [LinearOrder α] [Zero α] (h : α → α) :
    List α → cs_quant_info_t α
  | [] => { meas_min := 0, meas_max := 0, h_min := 0, h_max := 0, min_id := 0, max_id := 0 }
  | m0 :: rest =>
    cs_quant_info_scan h 1 rest
      { meas_min := m0, meas_max := m0, h_min := h m0, h_max := h m0, min_id := 0, max_id := 0 }

/-- Modelled from the spec: `cs_cdo_quantities_build` (only its prototype is
among the files covered here), from the primal quantities on: the Dual Quantity
Builder yields the `dface` array, the Quantity Aggregator the three
`cs_quant_info_t` records and the total volume.  `h_cell`, `h_face`, `h_edge`
derive the equivalent diameter of an entity from its measure.  The build fails
(`none`) instead of returning a partially populated bundle. -/
def cs_cdo_quantities_build {α : Type} [LinearOrderedField α] (sqrt : α → α)
    (h_cell h_face h_edge : α → α) (p : cs_cdo_primal_t α) :
    Option (cs_cdo_quantities_t α) :=
  match cs_dface_build_all sqrt p p.c2e with
  | none => none
  | some dface =>
    some { vol_tot := p.cell_vol.sum
           n_cells := p.cell_vol.length
           cell_centers := p.cell_centers
           cell_vol := p.cell_vol
           cell_info := cs_quant_info_compute h_cell p.cell_vol
           n_faces := p.face.length
           face := p.face
           face_info := cs_quant_info_compute h_face (p.face.map fun q => q.meas)
           n_edges := p.edge.length
           edge := p.edge
           dface := dface
           edge_info := cs_quant_info_compute h_edge (p.edge.map fun q => q.meas) }

/-! ## The Lagrangian user hook `cs_user_lagr_model` -/

/-- The member `nt_cur` of `cs_time_step_t` (current time step number). -/
structure cs_time_step_t where
  nt_cur : Int
  deriving DecidableEq

/-- The member `nstist` of `cs_lagr_stat_options_t`. -/
structure cs_lagr_stat_options_t where
  nstist : Int
  deriving DecidableEq

/-- The member `nstits` of `cs_lagr_source_terms_t`. -/
structure cs_lagr_source_terms_t where
  nstits : Int
  deriving DecidableEq

/-- The member `isttio` of `cs_lagr_time_scheme_t`. -/
structure cs_lagr_time_scheme_t where
  isttio : Int
  deriving DecidableEq

/-- The global state `cs_user_lagr_model` reads and writes, through the
pointers `cs_glob_time_step`, `cs_glob_lagr_stat_options`,
`cs_glob_lagr_source_terms` and `cs_glob_lagr_time_scheme`. -/
structure cs_glob_t where
  cs_glob_time_step : cs_time_step_t
  cs_glob_lagr_stat_options : cs_lagr_stat_options_t
  cs_glob_lagr_source_terms : cs_lagr_source_terms_t
  cs_glob_lagr_time_scheme : cs_lagr_time_scheme_t
  deriving DecidableEq

/-- The user function `cs_user_lagr_model(void)` as a state transformer. -/
def cs_user_lagr_model (g : cs_glob_t) : cs_glob_t :=
  if g.cs_glob_time_step.nt_cur > g.cs_glob_lagr_stat_options.nstist then
    { g with
      cs_glob_lagr_source_terms := { nstits := g.cs_glob_lagr_stat_options.nstist }
      cs_glob_lagr_time_scheme := { isttio := 1 } }
  else g

/-! ## A concrete input of the builder -/

/-- The corner at the origin of the box [0,1] x [0,2] x [0,3] seen as one
cell: the three faces x = 0, y = 0, z = 0 of the cell, the three edges on the
coordinate axes, and the three (cell, edge) incidences. -/
def box_corner_primal {α : Type} [LinearOrderedField α] : cs_cdo_primal_t α :=
  { cell_centers := [⟨0.5, 1, 1.5⟩]
    cell_vol := [6]
    face :=
      [ { meas := 2, unitv := ⟨0, 0, -1⟩, center := ⟨0.5, 1, 0⟩ },
        { meas := 3, unitv := ⟨0, -1, 0⟩, center := ⟨0.5, 0, 1.5⟩ },
        { meas := 6, unitv := ⟨-1, 0, 0⟩, center := ⟨0, 1, 1.5⟩ } ]
    edge :=
      [ { meas := 1, unitv := ⟨1, 0, 0⟩, center := ⟨0.5, 0, 0⟩ },
        { meas := 2, unitv := ⟨0, 1, 0⟩, center := ⟨0, 1, 0⟩ },
        { meas := 3, unitv := ⟨0, 0, 1⟩, center := ⟨0, 0, 1.5⟩ } ]
    c2e :=
      [ { c_id := 0, e_id := 0, f_id := ![0, 1], sgn := ![1, -1] },
        { c_id := 0, e_id := 1, f_id := ![0, 2], sgn := ![-1, 1] },
        { c_id := 0, e_id := 2, f_id := ![1, 2], sgn := ![1, -1] } ] }

/-! ## Auxiliary facts -/

theorem cs_real_3_t.ext_iff3 {α : Type} (u v : cs_real_3_t α) :
    u = v ↔ u.c0 = v.c0 ∧ u.c1 = v.c1 ∧ u.c2 = v.c2 := by
  cases u; cases v; simp

theorem norm_eq_euclidean (v : cs_real_3_t ℝ) :
    cs_math_3_norm Real.sqrt v = ‖(WithLp.equiv 2 (Fin 3 → ℝ)).symm (vec v)‖ := by
  rw [EuclideanSpace.norm_eq]
  simp [cs_math_3_norm, vec, Fin.sum_univ_three, sq]

theorem cross_eq_crossProduct {α : Type} [Field α] (u v : cs_real_3_t α) :
    vec (cs_math_3_cross_product u v) = crossProduct (vec u) (vec v) := by
  simp [cs_math_3_cross_product, vec, cross_apply]

theorem norm_scale (c : ℝ) (v : cs_real_3_t ℝ) :
    cs_math_3_norm Real.sqrt ⟨c * v.c0, c * v.c1, c * v.c2⟩ = |c| * cs_math_3_norm Real.sqrt v := by
  unfold cs_math_3_norm
  have h : c * v.c0 * (c * v.c0) + c * v.c1 * (c * v.c1) + c * v.c2 * (c * v.c2)
      = c ^ 2 * (v.c0 * v.c0 + v.c1 * v.c1 + v.c2 * v.c2) := by ring
  rw [h, Real.sqrt_mul (sq_nonneg c), Real.sqrt_sq_eq_abs]

theorem norm_nonneg3 (v : cs_real_3_t ℝ) : 0 ≤ cs_math_3_norm Real.sqrt v :=
  Real.sqrt_nonneg _

theorem norm_eq_zero3 (v : cs_real_3_t ℝ) :
    cs_math_3_norm Real.sqrt v = 0 ↔ v = ⟨0, 0, 0⟩ := by
  unfold cs_math_3_norm
  rw [Real.sqrt_eq_zero', cs_real_3_t.ext_iff3]
  constructor
  · intro h
    have h0 := mul_self_nonneg v.c0
    have h1 := mul_self_nonneg v.c1
    have h2 := mul_self_nonneg v.c2
    refine ⟨?_, ?_, ?_⟩ <;> apply mul_self_eq_zero.mp <;> linarith
  · rintro ⟨h0, h1, h2⟩
    simp [h0, h1, h2]

theorem xef_len_eq_zero (q : cs_quant_t ℝ) (xa : cs_real_3_t ℝ) :
    xef_len Real.sqrt q xa = 0 ↔ xa = q.center := by
  unfold xef_len
  rw [norm_eq_zero3, cs_real_3_t.ext_iff3, cs_real_3_t.ext_iff3]
  simp [xef, sub_eq_zero]

/-- Exact value of the code: the normalisation cancels. -/
theorem area_eq (q : cs_quant_t ℝ) (xa : cs_real_3_t ℝ) :
    cs_compute_area_from_quant Real.sqrt q xa
      = 0.5 * q.meas * cs_math_3_norm Real.sqrt (cs_math_3_cross_product (xef q xa) q.unitv) := by
  have hcp : cs_math_3_cross_product (xef_un Real.sqrt q xa) q.unitv
      = ⟨inv_len Real.sqrt q xa * (cs_math_3_cross_product (xef q xa) q.unitv).c0,
         inv_len Real.sqrt q xa * (cs_math_3_cross_product (xef q xa) q.unitv).c1,
         inv_len Real.sqrt q xa * (cs_math_3_cross_product (xef q xa) q.unitv).c2⟩ := by
    rw [cs_real_3_t.ext_iff3]
    simp only [cs_math_3_cross_product, xef_un]
    refine ⟨?_, ?_, ?_⟩ <;> ring
  have hL : 0 ≤ xef_len Real.sqrt q xa := norm_nonneg3 _
  have hinv : 0 ≤ inv_len Real.sqrt q xa := by
    unfold inv_len; positivity
  unfold cs_compute_area_from_quant
  simp only []
  rw [hcp, norm_scale, abs_of_nonneg hinv]
  by_cases h0 : xef_len Real.sqrt q xa = 0
  · have hx : xef q xa = ⟨0, 0, 0⟩ := (norm_eq_zero3 _).mp h0
    have hz : cs_math_3_norm Real.sqrt (cs_math_3_cross_product (xef q xa) q.unitv) = 0 := by
      rw [norm_eq_zero3, hx, cs_real_3_t.ext_iff3]
      simp [cs_math_3_cross_product]
    rw [h0, hz]; simp
  · unfold inv_len
    field_simp
    ring

theorem sqrt_four : Real.sqrt 4 = 2 := by
  rw [show (4 : ℝ) = 2 ^ 2 by norm_num, Real.sqrt_sq (by norm_num)]

/-! ## Facts on the binary64 model -/

theorem F64.log2Aux_spec (fuel : Nat) :
    ∀ n : Nat, n ≤ fuel → 0 < n →
      2 ^ F64.log2Aux fuel n ≤ n ∧ n < 2 ^ (F64.log2Aux fuel n + 1) := by
  induction fuel with
  | zero => intro n h1 h2; omega
  | succ fuel ih =>
    intro n h1 h2
    unfold F64.log2Aux
    by_cases hn : n < 2
    · simp only [hn, if_true]
      constructor
      · simpa using h2
      · simpa using hn
    · simp only [hn, if_false]
      obtain ⟨a, b⟩ := ih (n / 2) (by omega) (by omega)
      rw [pow_succ] at b ⊢
      constructor
      · omega
      · rw [pow_succ]; omega

/-- The leading bit: `2^(log2 n) <= n < 2^(log2 n + 1)` for `n > 0`. -/
theorem F64.log2_spec (n : Nat) (h : 0 < n) :
    2 ^ F64.log2 n ≤ n ∧ n < 2 ^ (F64.log2 n + 1) :=
  F64.log2Aux_spec n n (le_refl n) h

theorem F64.isqrtAux_spec (n : Nat) (i : Nat) :
    ∀ r : Nat, r * r ≤ n → n < (r + 2 ^ i) * (r + 2 ^ i) →
      F64.isqrtAux n i r * F64.isqrtAux n i r ≤ n ∧
        n < (F64.isqrtAux n i r + 1) * (F64.isqrtAux n i r + 1) := by
  induction i with
  | zero =>
    intro r h1 h2
    simpa [F64.isqrtAux] using And.intro h1 h2
  | succ i ih =>
    intro r h1 h2
    unfold F64.isqrtAux
    by_cases hc : (r + 2 ^ i) * (r + 2 ^ i) ≤ n
    · simp only [hc, if_true]
      apply ih _ hc
      have : r + 2 ^ i + 2 ^ i = r + 2 ^ (i + 1) := by rw [pow_succ]; omega
      rw [this]
      exact h2
    · simp only [hc, if_false]
      exact ih _ h1 (not_le.mp hc)

/-- The integer square root: `isqrt n` is the largest `r` with `r * r <= n`. -/
theorem F64.isqrt_spec (n : Nat) :
    F64.isqrt n * F64.isqrt n ≤ n ∧ n < (F64.isqrt n + 1) * (F64.isqrt n + 1) := by
  unfold F64.isqrt
  apply F64.isqrtAux_spec
  · simp
  · rcases Nat.eq_zero_or_pos n with h0 | hpos
    · subst h0; simp
    · obtain ⟨_, b⟩ := F64.log2_spec n hpos
      have h2 : F64.log2 n + 1 ≤ 2 * (F64.log2 n / 2 + 1) := by omega
      have h3 : 2 ^ (F64.log2 n + 1) ≤ 2 ^ (2 * (F64.log2 n / 2 + 1)) :=
        Nat.pow_le_pow_right (by norm_num) h2
      have h4 : (0 + 2 ^ (F64.log2 n / 2 + 1)) * (0 + 2 ^ (F64.log2 n / 2 + 1))
          = 2 ^ (2 * (F64.log2 n / 2 + 1)) := by
        rw [Nat.zero_add, ← pow_two, ← pow_mul, Nat.mul_comm]
      rw [h4]
      omega

/-- Known binary64 values reproduced by the model: the literals 0.1 and 0.5,
the quotients 1/3 and 1/5, the sum 0.1 + 0.2, the square roots of 2 and of 25,
the tie `3 * fl(1/5)`, underflow of `2^-1075` to zero (tie to even), overflow
of `1e308 * 10`, and `1/0 = +inf`, `0 * inf = NaN`. -/
theorem F64.known_values :
    (0.1 : F64) = F64.fin false 7205759403792794 (-56) ∧
      (0.5 : F64) = F64.fin false 4503599627370496 (-53) ∧
      (1 : F64) / 3 = F64.fin false 6004799503160661 (-54) ∧
      (1 : F64) / 5 = F64.fin false 7205759403792794 (-55) ∧
      (0.1 : F64) + 0.2 = F64.fin false 5404319552844596 (-54) ∧
      F64.sqrt 2 = F64.fin false 6369051672525773 (-52) ∧
      F64.sqrt 25 = 5 ∧
      (1 : F64) / 5 * 3 = F64.fin false 5404319552844596 (-53) ∧
      F64.pow2 (-1075) = F64.fin false 0 0 ∧
      (1e308 : F64) * 10 = F64.inf false ∧
      (1 : F64) / 0 = F64.inf false ∧
      (0 : F64) * F64.inf false = F64.nan := by
  decide!

theorem F64.nan_mul (x : F64) : F64.nan * x = F64.nan := by
  cases x <;> rfl

theorem F64.mul_nan (x : F64) : x * F64.nan = F64.nan := by
  cases x <;> rfl

theorem F64.sub_self_of_isFinite (a : F64) (h : a.isFinite = true) :
    a - a = F64.fin false 0 0 := by
  cases a with
  | fin s m e =>
    show F64.add (F64.fin s m e) (F64.neg (F64.fin s m e)) = F64.fin false 0 0
    cases s <;> simp [F64.add, F64.neg, F64.toIntAt]
  | inf s => simp [F64.isFinite] at h
  | nan => simp [F64.isFinite] at h

/-- In double arithmetic the four sub-triangle areas of the unit square face
are 0.25 each and add up to 1, as over the reals. -/
theorem unit_square_face_measure_double :
    (unit_square_edges.map fun q => cs_compute_area_from_quant F64.sqrt q unit_square_xf)
        = [0.25, 0.25, 0.25, 0.25] ∧
      (0.25 : F64) + 0.25 + 0.25 + 0.25 = 1 := by
  decide!

/-! ## The claims on `cs_compute_area_from_quant` -/

/-- C1: for `q.meas >= 0` and `xa != q.center`, `cs_compute_area_from_quant`
returns the area of the triangle with base the segment `[v1, v2]` described by
`q` and apex `xa`, i.e. half the Euclidean norm of `(v1 - xa) x (v2 - xa)`. -/
theorem cs_compute_area_from_quant_is_triangle_area (q : cs_quant_t ℝ) (xa : cs_real_3_t ℝ)
    (hm : 0 ≤ q.meas) (_hx : xa ≠ q.center) :
    cs_compute_area_from_quant Real.sqrt q xa
      = 1 / 2 * ‖(WithLp.equiv 2 (Fin 3 → ℝ)).symm
          (crossProduct (vec (segment_v1 q) - vec xa) (vec (segment_v2 q) - vec xa))‖ := by
  have key : crossProduct (vec (segment_v1 q) - vec xa) (vec (segment_v2 q) - vec xa)
      = vec ⟨-q.meas * (cs_math_3_cross_product (xef q xa) q.unitv).c0,
             -q.meas * (cs_math_3_cross_product (xef q xa) q.unitv).c1,
             -q.meas * (cs_math_3_cross_product (xef q xa) q.unitv).c2⟩ := by
    ext i
    fin_cases i <;>
      simp [vec, cross_apply, segment_v1, segment_v2, cs_math_3_cross_product, xef] <;> ring
  rw [key, ← norm_eq_euclidean, norm_scale, abs_neg, abs_of_nonneg hm, area_eq]
  norm_num
  ring

/-- Witness for C1: the segment from (0,0,0) to (1,0,0) with apex (0.5,0.5,0). -/
theorem cs_compute_area_from_quant_is_triangle_area_witness :
    cs_compute_area_from_quant Real.sqrt
        ({ meas := 1, unitv := ⟨1, 0, 0⟩, center := ⟨0.5, 0, 0⟩ } : cs_quant_t ℝ) ⟨0.5, 0.5, 0⟩
      = 1 / 2 * ‖(WithLp.equiv 2 (Fin 3 → ℝ)).symm
          (crossProduct
            (vec (segment_v1 ({ meas := 1, unitv := ⟨1, 0, 0⟩, center := ⟨0.5, 0, 0⟩ } :
                cs_quant_t ℝ)) - vec (⟨0.5, 0.5, 0⟩ : cs_real_3_t ℝ))
            (vec (segment_v2 ({ meas := 1, unitv := ⟨1, 0, 0⟩, center := ⟨0.5, 0, 0⟩ } :
                cs_quant_t ℝ)) - vec (⟨0.5, 0.5, 0⟩ : cs_real_3_t ℝ)))‖ :=
  cs_compute_area_from_quant_is_triangle_area _ _ (by norm_num)
    (by rw [Ne, cs_real_3_t.ext_iff3]; norm_num)

/-- C3: on the unit square face of the unit cube (the four edges join the
vertices (0,0,0), (1,0,0), (1,1,0), (0,1,0) in turn), each of the four
sub-triangle areas `cs_compute_area_from_quant(q_e, xf)` is 0.25 and their sum,
the face measure, is 1. -/
theorem unit_square_face_measure :
    (unit_square_edges.map fun q : cs_quant_t ℝ => (segment_v1 q, segment_v2 q))
        = [ (⟨0, 0, 0⟩, ⟨1, 0, 0⟩), (⟨1, 0, 0⟩, ⟨1, 1, 0⟩), (⟨1, 1, 0⟩, ⟨0, 1, 0⟩),
            (⟨0, 1, 0⟩, ⟨0, 0, 0⟩) ] ∧
      (unit_square_edges.map fun q => cs_compute_area_from_quant Real.sqrt q unit_square_xf)
        = [0.25, 0.25, 0.25, 0.25] ∧
      ((unit_square_edges.map fun q =>
        cs_compute_area_from_quant Real.sqrt q unit_square_xf).sum = 1.0) := by
  refine ⟨by norm_num [unit_square_edges, segment_v1, segment_v2], ?_⟩
  have h : (unit_square_edges.map fun q => cs_compute_area_from_quant Real.sqrt q unit_square_xf)
        = [0.25, 0.25, 0.25, 0.25] := by
    simp only [unit_square_edges, List.map, area_eq]
    norm_num [cs_math_3_norm, cs_math_3_cross_product, xef, unit_square_xf, sqrt_four]
  rw [h]
  norm_num

/-- C8 (amended): `cs_compute_area_from_quant` divides by `xef_len` without a
guard.  In exact real arithmetic `xef_len` is positive exactly when
`xa != q.center`, zero exactly when `xa = q.center`, and `inv_len` is a true
inverse of `xef_len` exactly when `xa != q.center`.  In double arithmetic, when
the apex is the center (finite coordinates), `xef_len` is `+0`, the division
`1/xef_len` yields `+inf` and the function returns NaN. -/
theorem cs_compute_area_from_quant_unguarded_division (q : cs_quant_t ℝ) (xa : cs_real_3_t ℝ)
    (qd : cs_quant_t F64)
    (hfin : qd.center.c0.isFinite = true ∧ qd.center.c1.isFinite = true ∧
      qd.center.c2.isFinite = true) :
    ((0 < xef_len Real.sqrt q xa ↔ xa ≠ q.center) ∧
      (xef_len Real.sqrt q xa = 0 ↔ xa = q.center) ∧
      (inv_len Real.sqrt q xa * xef_len Real.sqrt q xa = 1 ↔ xa ≠ q.center)) ∧
    (xef_len F64.sqrt qd qd.center = F64.fin false 0 0 ∧
      inv_len F64.sqrt qd qd.center = F64.inf false ∧
      cs_compute_area_from_quant F64.sqrt qd qd.center = F64.nan) := by
  constructor
  · have h0 := xef_len_eq_zero q xa
    have hn : 0 ≤ xef_len Real.sqrt q xa := norm_nonneg3 _
    refine ⟨?_, h0, ?_⟩
    · rw [← not_iff_not, not_not, ← h0]
      constructor
      · intro h; exact le_antisymm (not_lt.mp h) hn
      · intro h; rw [h]; exact lt_irrefl 0
    · rw [Ne, ← h0]
      unfold inv_len
      constructor
      · intro h hz
        rw [hz] at h
        norm_num at h
      · intro h
        field_simp
  · have hx : xef qd qd.center = ⟨F64.fin false 0 0, F64.fin false 0 0, F64.fin false 0 0⟩ := by
      unfold xef
      rw [F64.sub_self_of_isFinite _ hfin.1, F64.sub_self_of_isFinite _ hfin.2.1,
        F64.sub_self_of_isFinite _ hfin.2.2]
    have hl : xef_len F64.sqrt qd qd.center = F64.fin false 0 0 := by
      unfold xef_len
      rw [hx]
      decide!
    have hi : inv_len F64.sqrt qd qd.center = F64.inf false := by
      unfold inv_len
      rw [hl]
      decide!
    have hu : xef_un F64.sqrt qd qd.center = ⟨F64.nan, F64.nan, F64.nan⟩ := by
      unfold xef_un
      rw [hi, hx]
      rfl
    refine ⟨hl, hi, ?_⟩
    unfold cs_compute_area_from_quant
    simp only [hu, cs_math_3_cross_product, cs_math_3_norm, F64.nan_mul]
    exact F64.mul_nan _

/-- Witness for C8: over the reals the segment of length 1 along the z axis
with apex (0, 3, 4); in double arithmetic a segment centred at (1, 2, 3) with
the apex on its center. -/
theorem cs_compute_area_from_quant_unguarded_division_witness :
    (apex_on_center_quant.center.c0.isFinite = true ∧
      apex_on_center_quant.center.c1.isFinite = true ∧
      apex_on_center_quant.center.c2.isFinite = true) ∧
    ((0 < xef_len Real.sqrt rounding_quant rounding_xa ↔
        (rounding_xa : cs_real_3_t ℝ) ≠ (rounding_quant : cs_quant_t ℝ).center) ∧
      (xef_len Real.sqrt rounding_quant rounding_xa = 0 ↔
        (rounding_xa : cs_real_3_t ℝ) = (rounding_quant : cs_quant_t ℝ).center) ∧
      (inv_len Real.sqrt rounding_quant rounding_xa * xef_len Real.sqrt rounding_quant rounding_xa
          = 1 ↔
        (rounding_xa : cs_real_3_t ℝ) ≠ (rounding_quant : cs_quant_t ℝ).center)) ∧
    (xef_len F64.sqrt apex_on_center_quant apex_on_center_quant.center = F64.fin false 0 0 ∧
      inv_len F64.sqrt apex_on_center_quant apex_on_center_quant.center = F64.inf false ∧
      cs_compute_area_from_quant F64.sqrt apex_on_center_quant apex_on_center_quant.center
        = F64.nan) :=
  ⟨⟨rfl, rfl, rfl⟩,
    cs_compute_area_from_quant_unguarded_division rounding_quant rounding_xa
      apex_on_center_quant ⟨rfl, rfl, rfl⟩⟩

/-- Counterexample to C8 in double arithmetic.  With `q.center = (0, 0, 0)` and
`xa = (0, 2^-600, 0)` the apex differs from the center, yet the square
`2^-1200` underflows to 0, so `xef_len` is `+0` and not positive, `inv_len` is
`+inf` and the function returns NaN. -/
theorem xef_len_zero_off_center_on_double :
    tiny_xa ≠ tiny_quant.center ∧
      F64.lt tiny_quant.center.c1 tiny_xa.c1 = true ∧
      xef_len F64.sqrt tiny_quant tiny_xa = F64.fin false 0 0 ∧
      F64.lt 0 (xef_len F64.sqrt tiny_quant tiny_xa) = false ∧
      inv_len F64.sqrt tiny_quant tiny_xa = F64.inf false ∧
      cs_compute_area_from_quant F64.sqrt tiny_quant tiny_xa = F64.nan := by
  decide!

theorem getElem?_append_of_some {α : Type} {l t : List α} {i : Nat} {x : α}
    (h : l[i]? = some x) : (l ++ t)[i]? = some x := by
  have hi : i < l.length := by
    by_contra hc
    rw [List.getElem?_eq_none (not_lt.mp hc)] at h
    exact absurd h (by simp)
  rw [List.getElem?_append_left hi]
  exact h

theorem cs_quant_info_update_inv {α : Type} [LinearOrder α] (h : α → α) (pre : List α) (m : α)
    (qi : cs_quant_info_t α) (h1 : qi.meas_min ≤ qi.meas_max)
    (h2 : pre[qi.min_id]? = some qi.meas_min) (h3 : pre[qi.max_id]? = some qi.meas_max) :
    (cs_quant_info_update h pre.length m qi).meas_min
        ≤ (cs_quant_info_update h pre.length m qi).meas_max ∧
      (pre ++ [m])[(cs_quant_info_update h pre.length m qi).min_id]?
        = some (cs_quant_info_update h pre.length m qi).meas_min ∧
      (pre ++ [m])[(cs_quant_info_update h pre.length m qi).max_id]?
        = some (cs_quant_info_update h pre.length m qi).meas_max := by
  have e2 := getElem?_append_of_some (t := [m]) h2
  have e3 := getElem?_append_of_some (t := [m]) h3
  have em : (pre ++ [m])[pre.length]? = some m := by simp
  unfold cs_quant_info_update
  by_cases c1 : m < qi.meas_min
  · have c2 : ¬ qi.meas_max < m := not_lt.mpr (le_trans (le_of_lt c1) h1)
    simp only [c1, c2, if_true, if_false]
    exact ⟨le_trans (le_of_lt c1) h1, em, e3⟩
  · by_cases c2 : qi.meas_max < m
    · simp only [c1, c2, if_true, if_false]
      exact ⟨le_trans h1 (le_of_lt c2), e2, em⟩
    · simp only [c1, c2, if_false]
      exact ⟨h1, e2, e3⟩

theorem cs_quant_info_scan_inv {α : Type} [LinearOrder α] (h : α → α) (rest : List α) :
    ∀ (pre : List α) (qi : cs_quant_info_t α), qi.meas_min ≤ qi.meas_max →
      pre[qi.min_id]? = some qi.meas_min → pre[qi.max_id]? = some qi.meas_max →
      (cs_quant_info_scan h pre.length rest qi).meas_min
          ≤ (cs_quant_info_scan h pre.length rest qi).meas_max ∧
        (pre ++ rest)[(cs_quant_info_scan h pre.length rest qi).min_id]?
          = some (cs_quant_info_scan h pre.length rest qi).meas_min ∧
        (pre ++ rest)[(cs_quant_info_scan h pre.length rest qi).max_id]?
          = some (cs_quant_info_scan h pre.length rest qi).meas_max := by
  induction rest with
  | nil =>
    intro pre qi h1 h2 h3
    simpa [cs_quant_info_scan] using ⟨h1, h2, h3⟩
  | cons m rest ih =>
    intro pre qi h1 h2 h3
    obtain ⟨u1, u2, u3⟩ := cs_quant_info_update_inv h pre m qi h1 h2 h3
    have hs := ih (pre ++ [m]) (cs_quant_info_update h pre.length m qi) u1 u2 u3
    simpa [cs_quant_info_scan] using hs

theorem cs_quant_info_compute_inv {α : Type} [LinearOrder α] [Zero α] (h : α → α)
    (meas : List α) (hne : meas ≠ []) :
    (cs_quant_info_compute h meas).meas_min ≤ (cs_quant_info_compute h meas).meas_max ∧
      meas[(cs_quant_info_compute h meas).min_id]?
        = some (cs_quant_info_compute h meas).meas_min ∧
      meas[(cs_quant_info_compute h meas).max_id]?
        = some (cs_quant_info_compute h meas).meas_max := by
  cases meas with
  | nil => exact absurd rfl hne
  | cons m0 rest =>
    have hs := cs_quant_info_scan_inv h rest [m0]
      { meas_min := m0, meas_max := m0, h_min := h m0, h_max := h m0, min_id := 0, max_id := 0 }
      (le_refl _) (by simp) (by simp)
    simpa [cs_quant_info_compute] using hs

/-! ## The claims on the quantities bundle -/

/-- C5: in a bundle returned by the modelled `cs_cdo_quantities_build`, each of
`cell_info`, `face_info`, `edge_info` over a non-empty entity class has
`meas_min <= meas_max`, the entity `min_id` has measure `meas_min` and the
entity `max_id` has measure `meas_max`. -/
theorem cs_cdo_quantities_build_quant_info (h_cell h_face h_edge : ℝ → ℝ)
    (p : cs_cdo_primal_t ℝ) (b : cs_cdo_quantities_t ℝ)
    (hb : cs_cdo_quantities_build Real.sqrt h_cell h_face h_edge p = some b) :
    (b.cell_vol ≠ [] →
      b.cell_info.meas_min ≤ b.cell_info.meas_max ∧
        b.cell_vol[b.cell_info.min_id]? = some b.cell_info.meas_min ∧
        b.cell_vol[b.cell_info.max_id]? = some b.cell_info.meas_max) ∧
    (b.face ≠ [] →
      b.face_info.meas_min ≤ b.face_info.meas_max ∧
        (b.face[b.face_info.min_id]?).map (fun q => q.meas) = some b.face_info.meas_min ∧
        (b.face[b.face_info.max_id]?).map (fun q => q.meas) = some b.face_info.meas_max) ∧
    (b.edge ≠ [] →
      b.edge_info.meas_min ≤ b.edge_info.meas_max ∧
        (b.edge[b.edge_info.min_id]?).map (fun q => q.meas) = some b.edge_info.meas_min ∧
        (b.edge[b.edge_info.max_id]?).map (fun q => q.meas) = some b.edge_info.meas_max) := by
  unfold cs_cdo_quantities_build at hb
  split at hb
  · exact absurd hb (by simp)
  · simp only [Option.some.injEq] at hb
    subst hb
    refine ⟨?_, ?_, ?_⟩
    · intro hne
      exact cs_quant_info_compute_inv h_cell p.cell_vol hne
    · intro hne
      have := cs_quant_info_compute_inv h_face (p.face.map fun q => q.meas) (by simpa using hne)
      simpa [List.getElem?_map] using this
    · intro hne
      have := cs_quant_info_compute_inv h_edge (p.edge.map fun q => q.meas) (by simpa using hne)
      simpa [List.getElem?_map] using this

/-- Witness for C5: the cell, the three faces and the three edges at the corner
of the 1 x 2 x 3 box. -/
theorem cs_cdo_quantities_build_quant_info_witness :
    ∃ b : cs_cdo_quantities_t ℝ,
      cs_cdo_quantities_build Real.sqrt (fun m => m) (fun m => m) (fun m => m)
          box_corner_primal = some b ∧
        b.cell_vol.length = 1 ∧ b.face.length = 3 ∧ b.edge.length = 3 ∧
        (b.cell_info.meas_min ≤ b.cell_info.meas_max ∧
          b.cell_vol[b.cell_info.min_id]? = some b.cell_info.meas_min ∧
          b.cell_vol[b.cell_info.max_id]? = some b.cell_info.meas_max) ∧
        (b.face_info.meas_min ≤ b.face_info.meas_max ∧
          (b.face[b.face_info.min_id]?).map (fun q => q.meas) = some b.face_info.meas_min ∧
          (b.face[b.face_info.max_id]?).map (fun q => q.meas) = some b.face_info.meas_max) ∧
        (b.edge_info.meas_min ≤ b.edge_info.meas_max ∧
          (b.edge[b.edge_info.min_id]?).map (fun q => q.meas) = some b.edge_info.meas_min ∧
          (b.edge[b.edge_info.max_id]?).map (fun q => q.meas) = some b.edge_info.meas_max) :=
  ⟨_, rfl, rfl, rfl, rfl,
    (cs_cdo_quantities_build_quant_info (fun m => m) (fun m => m) (fun m => m)
      box_corner_primal _ rfl).1 (List.cons_ne_nil _ _),
    (cs_cdo_quantities_build_quant_info (fun m => m) (fun m => m) (fun m => m)
      box_corner_primal _ rfl).2.1 (List.cons_ne_nil _ _),
    (cs_cdo_quantities_build_quant_info (fun m => m) (fun m => m) (fun m => m)
      box_corner_primal _ rfl).2.2 (List.cons_ne_nil _ _)⟩

/-! ## The claim on the enumeration -/

/-- C6: `cs_cdo_cc_algo_t` has exactly the four algorithm values
`CS_CDO_CC_MEANV`, `CS_CDO_CC_BARYC`, `CS_CDO_CC_SATURNE`, `CS_CDO_CC_ORTHO`
with the pairwise distinct codes 0, 1, 2, 3 in that order, and the sentinel
`CS_CDO_N_CC_ALGOS` equals 4, the number of algorithms. -/
theorem cs_cdo_cc_algo_t_codes :
    cs_cdo_cc_algo_t.algos
        = [ .CS_CDO_CC_MEANV, .CS_CDO_CC_BARYC, .CS_CDO_CC_SATURNE, .CS_CDO_CC_ORTHO ] ∧
      (∀ a : cs_cdo_cc_algo_t, a ∈ cs_cdo_cc_algo_t.algos ∨ a = .CS_CDO_N_CC_ALGOS) ∧
      cs_cdo_cc_algo_t.algos.map cs_cdo_cc_algo_t.code = [0, 1, 2, 3] ∧
      (cs_cdo_cc_algo_t.algos.map cs_cdo_cc_algo_t.code).Nodup ∧
      cs_cdo_cc_algo_t.code .CS_CDO_N_CC_ALGOS = 4 ∧
      cs_cdo_cc_algo_t.code .CS_CDO_N_CC_ALGOS = cs_cdo_cc_algo_t.algos.length := by
  refine ⟨by decide, ?_, by decide, by decide, by decide, by decide⟩
  intro a
  cases a <;> decide

/-! ## The claim on `cs_user_lagr_model` -/

/-- C9: when `nt_cur > nstist`, after `cs_user_lagr_model` the member `nstits`
equals `nstist` and `isttio` equals 1, while `nt_cur` and `nstist` keep their
values. -/
theorem cs_user_lagr_model_past_nstist (g : cs_glob_t)
    (h : g.cs_glob_time_step.nt_cur > g.cs_glob_lagr_stat_options.nstist) :
    (cs_user_lagr_model g).cs_glob_lagr_source_terms.nstits
        = g.cs_glob_lagr_stat_options.nstist ∧
      (cs_user_lagr_model g).cs_glob_lagr_time_scheme.isttio = 1 ∧
      (cs_user_lagr_model g).cs_glob_time_step.nt_cur = g.cs_glob_time_step.nt_cur ∧
      (cs_user_lagr_model g).cs_glob_lagr_stat_options.nstist
        = g.cs_glob_lagr_stat_options.nstist := by
  unfold cs_user_lagr_model
  rw [if_pos h]
  exact ⟨rfl, rfl, rfl, rfl⟩

/-- Witness for C9: iteration 12 with `nstist = 10`, `nstits = 3`, `isttio = 0`. -/
theorem cs_user_lagr_model_past_nstist_witness :
    (cs_user_lagr_model ⟨⟨12⟩, ⟨10⟩, ⟨3⟩, ⟨0⟩⟩).cs_glob_lagr_source_terms.nstits = 10 ∧
      (cs_user_lagr_model ⟨⟨12⟩, ⟨10⟩, ⟨3⟩, ⟨0⟩⟩).cs_glob_lagr_time_scheme.isttio = 1 ∧
      (cs_user_lagr_model ⟨⟨12⟩, ⟨10⟩, ⟨3⟩, ⟨0⟩⟩).cs_glob_time_step.nt_cur = 12 ∧
      (cs_user_lagr_model ⟨⟨12⟩, ⟨10⟩, ⟨3⟩, ⟨0⟩⟩).cs_glob_lagr_stat_options.nstist = 10 :=
  cs_user_lagr_model_past_nstist ⟨⟨12⟩, ⟨10⟩, ⟨3⟩, ⟨0⟩⟩ (by decide)

end CsCdo
